import Mathlib

/-!
Verification of the wallet-hunter backend data core.

The definitions below are a shallow embedding of the two source files
`api_server.py` and `bot.py`:
  * the `users` table row is the structure `UserRow`; SQLite REAL values are
    modelled as exact rationals (every value the claims mention is exact);
  * the store is a list of rows, looked up by `user_id` (first match, as
    `SELECT ... WHERE user_id=?` with `user_id` a primary key);
  * python `Optional` fields are `Option`;
  * HTTP error responses (`HTTPException`) are the `ApiError` type: an
    operation that raises before writing is embedded as a function returning
    `Except ApiError _` whose error branch leaves the store untouched,
    mirroring the fact that the exception is raised before any SQL write;
  * the schema layer (`db_init` / `ensure_user_columns` of both processes)
    is embedded separately at column granularity: a `Table` is a column list
    plus rows given as association lists from column name to value, and
    `ALTER TABLE ADD COLUMN c DEFAULT d` appends `c` to the columns and
    `(c, d)` to every row.
-/

/-- A SQLite cell value as used by this schema: INTEGER, REAL or TEXT. -/
inductive ColValue where
  | intV (n : Int)
  | ratV (q : ℚ)
  | strV (s : String)
deriving DecidableEq, Repr

/-- One row of the `users` table, with the full column set of
`api_server.py`'s `CREATE TABLE` statement. -/
structure UserRow where
  user_id : Int
  username : String
  first_name : String
  last_name : String
  language : String
  created_at : Int
  last_seen : Int
  minutes_in_app : Int
  wallet_status : String
  wallet_address : String
  win_chance : ℚ
  gen_level : Int
  t_wallet_seconds : Int
  t_seed_seconds : Int
  bal_mmc : ℚ
  bal_ton : ℚ
  bal_usdt : ℚ
  bal_stars : ℚ
deriving DecidableEq, Repr

/-- The user store: the rows of the `users` table. -/
abbrev Store := List UserRow

/-- `SELECT * FROM users WHERE user_id=?` followed by `fetchone()`:
the first row whose `user_id` matches. -/
def findUser : Store → Int → Option UserRow
  | [], _ => none
  | r :: t, uid => if r.user_id = uid then some r else findUser t uid

/-- `UPDATE users SET ... WHERE user_id=?`: rewrite the matching row(s),
leave every other row untouched. -/
def updateRow (s : Store) (uid : Int) (f : UserRow → UserRow) : Store :=
  s.map (fun r => if r.user_id = uid then f r else r)

/-- The errors the API surfaces that matter to the core:
404 "User not found", 403 "Forbidden", 500 "ADMIN_API_KEY not set on server". -/
inductive ApiError where
  | notFound
  | forbidden
  | adminKeyUnset
deriving DecidableEq, Repr

/-- Request body of `/ping` (`PingBody` in `api_server.py`). -/
structure PingBody where
  user_id : Int
  username : Option String
  first_name : Option String
  last_name : Option String
  language : Option String
deriving DecidableEq, Repr

/-- The fresh row inserted by `upsert_user`: the seven identity columns are
given explicitly by the INSERT, all other columns take the table defaults
declared in `db_init`. -/
def freshUserRow (p : PingBody) (now : Int) : UserRow :=
  { user_id := p.user_id
    username := p.username.getD ""
    first_name := p.first_name.getD ""
    last_name := p.last_name.getD ""
    language := p.language.getD ""
    created_at := now
    last_seen := now
    minutes_in_app := 0
    wallet_status := "idle"
    wallet_address := ""
    win_chance := 1
    gen_level := 0
    t_wallet_seconds := 0
    t_seed_seconds := 900
    bal_mmc := 0
    bal_ton := 0
    bal_usdt := 0
    bal_stars := 0 }

/-- `upsert_user` of `api_server.py` (the bot's copy is identical up to how
the profile fields are unpacked from the Telegram user object): insert a new
row when the id is unseen, otherwise update the four profile columns and
`last_seen`. -/
def upsert_user (s : Store) (now : Int) (p : PingBody) : Store :=
  match findUser s p.user_id with
  | some _ =>
      updateRow s p.user_id (fun r =>
        { r with
          username := p.username.getD ""
          first_name := p.first_name.getD ""
          last_name := p.last_name.getD ""
          language := p.language.getD ""
          last_seen := now })
  | none => s ++ [freshUserRow p now]

/-- `get_user_row`: point read, 404 when absent. -/
def get_user_row (s : Store) (uid : Int) : Except ApiError UserRow :=
  match findUser s uid with
  | none => .error .notFound
  | some r => .ok r

/-- Request body of `/event` (`EventBody` in `api_server.py`); the `event`
and `phase` strings are carried but never influence the store. -/
structure EventBody where
  user_id : Int
  event : String
  phase : Option String
  minutes_delta : Option Int
  wallet_address : Option String
  wallet_status : Option String
deriving DecidableEq, Repr

/-- The `/event` route handler. It reads the row first (404 before any
write), then always refreshes `last_seen`; adds `minutes_delta` to the
previously read `minutes_in_app` when the delta is truthy and positive;
and overwrites each wallet column only when the input is present and
non-empty. -/
def event (s : Store) (now : Int) (b : EventBody) : Except ApiError Store :=
  match findUser s b.user_id with
  | none => .error .notFound
  | some r =>
    let s1 := updateRow s b.user_id (fun u => { u with last_seen := now })
    let s2 :=
      match b.minutes_delta with
      | some d =>
          if d ≠ 0 ∧ d > 0 then
            updateRow s1 b.user_id
              (fun u => { u with minutes_in_app := r.minutes_in_app + d })
          else s1
      | none => s1
    let s3 :=
      match b.wallet_address with
      | some w =>
          if w ≠ "" then
            updateRow s2 b.user_id (fun u => { u with wallet_address := w })
          else s2
      | none => s2
    let s4 :=
      match b.wallet_status with
      | some w =>
          if w ≠ "" then
            updateRow s3 b.user_id (fun u => { u with wallet_status := w })
          else s3
      | none => s3
    .ok s4

-- ---------------------------------------------------------------------------
-- Lemmas about the store primitives
-- ---------------------------------------------------------------------------

theorem findUser_append_of_none {s : Store} {uid : Int} (h : findUser s uid = none)
    (l : Store) : findUser (s ++ l) uid = findUser l uid := by
  induction s with
  | nil => rfl
  | cons r t ih =>
      by_cases hr : r.user_id = uid
      · simp [findUser, hr] at h
      · simp only [findUser, hr, if_false] at h
        simpa [findUser, hr] using ih h

theorem findUser_updateRow (s : Store) (uid : Int) (f : UserRow → UserRow)
    (hf : ∀ r, (f r).user_id = r.user_id) :
    findUser (updateRow s uid f) uid = (findUser s uid).map f := by
  induction s with
  | nil => rfl
  | cons r t ih =>
      simp only [updateRow, List.map_cons] at ih ⊢
      by_cases hr : r.user_id = uid
      · simp [findUser, hr, hf r]
      · simp only [findUser, hr, if_false, if_neg hr]
        exact ih

theorem findUser_updateRow_ne (s : Store) (uid uid' : Int) (f : UserRow → UserRow)
    (hf : ∀ r, (f r).user_id = r.user_id) (hne : uid' ≠ uid) :
    findUser (updateRow s uid f) uid' = findUser s uid' := by
  induction s with
  | nil => rfl
  | cons r t ih =>
      simp only [updateRow, List.map_cons] at ih ⊢
      by_cases hr : r.user_id = uid
      · have hfr : (f r).user_id = r.user_id := hf r
        have h1 : ¬ (f r).user_id = uid' := by
          rw [hfr, hr]; exact fun h => hne h.symm
        have h2 : ¬ r.user_id = uid' := by
          rw [hr]; exact fun h => hne h.symm
        have h3 : ¬ uid = uid' := fun h => hne h.symm
        simp only [findUser, hr, if_true, if_pos hr, h1, h2, h3, if_false]
        exact ih
      · simp only [findUser, if_neg hr]
        by_cases hr' : r.user_id = uid'
        · simp [hr']
        · simp only [hr', if_false]
          exact ih

theorem findUser_self_append {s : Store} {uid : Int} (h : findUser s uid = none)
    (r : UserRow) (hr : r.user_id = uid) : findUser (s ++ [r]) uid = some r := by
  rw [findUser_append_of_none h]
  simp [findUser, hr]

-- ---------------------------------------------------------------------------
-- The admin update endpoint and its field validation (api_server.py)
-- ---------------------------------------------------------------------------

/-- Request body of `/admin/user/update` (`AdminUpdateBody`): every field but
`user_id` is optional and defaults to absent. Numeric coercion performed by
pydantic (`float(v)` / `int(v)`) is modelled by the typed fields. -/
structure AdminUpdateBody where
  user_id : Int
  win_chance : Option ℚ
  gen_level : Option Int
  t_wallet_seconds : Option Int
  t_seed_seconds : Option Int
  bal_mmc : Option ℚ
  bal_ton : Option ℚ
  bal_usdt : Option ℚ
  bal_stars : Option ℚ
  wallet_address : Option String
  wallet_status : Option String
  minutes_in_app : Option Int
deriving DecidableEq, Repr

/-- The `clamp_win` field validator: `None` passes through, otherwise the
value is clamped into `[0, 100]`. -/
def clamp_win (v : Option ℚ) : Option ℚ :=
  v.map (fun x => if x < 0 then 0 else if x > 100 then 100 else x)

/-- The `non_negative_ints` field validator: `None` passes through, otherwise
`max(0, int(v))`. -/
def non_negative_ints (v : Option Int) : Option Int :=
  v.map (fun x => max 0 x)

/-- The validated body as pydantic constructs it: `clamp_win` applied to
`win_chance`, `non_negative_ints` applied to the four integer fields.
`parse_money` (decimal-comma normalisation plus `float(v)`) is the identity
on already-numeric values, and the string fields have no validator. -/
def validateAdminBody (raw : AdminUpdateBody) : AdminUpdateBody :=
  { raw with
    win_chance := clamp_win raw.win_chance
    gen_level := non_negative_ints raw.gen_level
    t_wallet_seconds := non_negative_ints raw.t_wallet_seconds
    t_seed_seconds := non_negative_ints raw.t_seed_seconds
    minutes_in_app := non_negative_ints raw.minutes_in_app }

/-- The `allowed_fields` set of `admin_user_update`. -/
def allowed_fields : List String :=
  ["win_chance", "gen_level", "t_wallet_seconds", "t_seed_seconds",
   "bal_mmc", "bal_ton", "bal_usdt", "bal_stars",
   "wallet_address", "wallet_status", "minutes_in_app"]

/-- One entry of the `fields` dict: present exactly when the body field is
not `None`. -/
def optField (name : String) (v : Option ColValue) : List (String × ColValue) :=
  match v with
  | none => []
  | some x => [(name, x)]

/-- The `fields` dict built by `admin_user_update`: for every allowed body
field that is not `None`, the pair (column name, value), in the model's
field declaration order (`user_id` is skipped). -/
def vettedFields (b : AdminUpdateBody) : List (String × ColValue) :=
  optField "win_chance" (b.win_chance.map ColValue.ratV) ++
  optField "gen_level" (b.gen_level.map ColValue.intV) ++
  optField "t_wallet_seconds" (b.t_wallet_seconds.map ColValue.intV) ++
  optField "t_seed_seconds" (b.t_seed_seconds.map ColValue.intV) ++
  optField "bal_mmc" (b.bal_mmc.map ColValue.ratV) ++
  optField "bal_ton" (b.bal_ton.map ColValue.ratV) ++
  optField "bal_usdt" (b.bal_usdt.map ColValue.ratV) ++
  optField "bal_stars" (b.bal_stars.map ColValue.ratV) ++
  optField "wallet_address" (b.wallet_address.map ColValue.strV) ++
  optField "wallet_status" (b.wallet_status.map ColValue.strV) ++
  optField "minutes_in_app" (b.minutes_in_app.map ColValue.intV)

/-- `SET <col>=?` for one column of the dynamic UPDATE statement: write the
named column, leave the row unchanged on a column name outside the schema's
updatable columns (never produced by `vettedFields`). -/
def setColumn (r : UserRow) (kv : String × ColValue) : UserRow :=
  if kv.1 = "win_chance" then
    match kv.2 with | .ratV q => { r with win_chance := q } | _ => r
  else if kv.1 = "gen_level" then
    match kv.2 with | .intV n => { r with gen_level := n } | _ => r
  else if kv.1 = "t_wallet_seconds" then
    match kv.2 with | .intV n => { r with t_wallet_seconds := n } | _ => r
  else if kv.1 = "t_seed_seconds" then
    match kv.2 with | .intV n => { r with t_seed_seconds := n } | _ => r
  else if kv.1 = "bal_mmc" then
    match kv.2 with | .ratV q => { r with bal_mmc := q } | _ => r
  else if kv.1 = "bal_ton" then
    match kv.2 with | .ratV q => { r with bal_ton := q } | _ => r
  else if kv.1 = "bal_usdt" then
    match kv.2 with | .ratV q => { r with bal_usdt := q } | _ => r
  else if kv.1 = "bal_stars" then
    match kv.2 with | .ratV q => { r with bal_stars := q } | _ => r
  else if kv.1 = "wallet_address" then
    match kv.2 with | .strV w => { r with wallet_address := w } | _ => r
  else if kv.1 = "wallet_status" then
    match kv.2 with | .strV w => { r with wallet_status := w } | _ => r
  else if kv.1 = "minutes_in_app" then
    match kv.2 with | .intV n => { r with minutes_in_app := n } | _ => r
  else r

/-- Python's `str.strip()`: drop leading and trailing whitespace.  (Defined
structurally over the character list so that concrete instances compute.) -/
def pyStrip (s : String) : String :=
  ⟨((s.data.dropWhile Char.isWhitespace).reverse.dropWhile
      Char.isWhitespace).reverse⟩

/-- `ADMIN_API_KEY = os.getenv("ADMIN_API_KEY", "").strip()`: the configured
key as derived from the raw environment value (empty when the variable is
unset). -/
def adminKeyOfEnv (env : String) : String := pyStrip env

/-- `require_admin`: 500 when the configured key is empty (falsy), 403 when
the supplied header, defaulted to `""` and stripped, differs from it. -/
def require_admin (adminKey : String) (x_api_key : Option String) :
    Except ApiError Unit :=
  if adminKey = "" then .error .adminKeyUnset
  else if pyStrip (x_api_key.getD "") ≠ adminKey then .error .forbidden
  else .ok ()

/-- `/admin/users`: admin check, then the bounded listing ordered by
`last_seen` descending (`LIMIT 500`). -/
def admin_users (adminKey : String) (s : Store) (x_api_key : Option String) :
    Except ApiError (List UserRow) :=
  match require_admin adminKey x_api_key with
  | .error e => .error e
  | .ok _ =>
      .ok (((s.mergeSort (fun a b => decide (b.last_seen ≤ a.last_seen))).take 500))

/-- `/admin/user/update` on an already-validated body: admin check, 404 on an
unknown `user_id`, then either the no-field early return (`updated: false`,
store untouched) or the single dynamic UPDATE over the vetted fields. -/
def admin_user_update (adminKey : String) (s : Store) (x_api_key : Option String)
    (b : AdminUpdateBody) : Except ApiError (Store × Bool) :=
  match require_admin adminKey x_api_key with
  | .error e => .error e
  | .ok _ =>
    match findUser s b.user_id with
    | none => .error .notFound
    | some _ =>
      let fields := vettedFields b
      if fields = [] then .ok (s, false)
      else .ok (updateRow s b.user_id (fun r => fields.foldl setColumn r), true)

-- ---------------------------------------------------------------------------
-- Characterisation of the vetted-field fold
-- ---------------------------------------------------------------------------

theorem foldl_optField_win (r : UserRow) (v : Option ℚ) :
    List.foldl setColumn r (optField "win_chance" (v.map ColValue.ratV)) =
    { r with win_chance := v.getD r.win_chance } := by
  cases v <;> rfl

theorem foldl_optField_gen (r : UserRow) (v : Option Int) :
    List.foldl setColumn r (optField "gen_level" (v.map ColValue.intV)) =
    { r with gen_level := v.getD r.gen_level } := by
  cases v <;> rfl

theorem foldl_optField_twallet (r : UserRow) (v : Option Int) :
    List.foldl setColumn r (optField "t_wallet_seconds" (v.map ColValue.intV)) =
    { r with t_wallet_seconds := v.getD r.t_wallet_seconds } := by
  cases v <;> rfl

theorem foldl_optField_tseed (r : UserRow) (v : Option Int) :
    List.foldl setColumn r (optField "t_seed_seconds" (v.map ColValue.intV)) =
    { r with t_seed_seconds := v.getD r.t_seed_seconds } := by
  cases v <;> rfl

theorem foldl_optField_mmc (r : UserRow) (v : Option ℚ) :
    List.foldl setColumn r (optField "bal_mmc" (v.map ColValue.ratV)) =
    { r with bal_mmc := v.getD r.bal_mmc } := by
  cases v <;> rfl

theorem foldl_optField_ton (r : UserRow) (v : Option ℚ) :
    List.foldl setColumn r (optField "bal_ton" (v.map ColValue.ratV)) =
    { r with bal_ton := v.getD r.bal_ton } := by
  cases v <;> rfl

theorem foldl_optField_usdt (r : UserRow) (v : Option ℚ) :
    List.foldl setColumn r (optField "bal_usdt" (v.map ColValue.ratV)) =
    { r with bal_usdt := v.getD r.bal_usdt } := by
  cases v <;> rfl

theorem foldl_optField_stars (r : UserRow) (v : Option ℚ) :
    List.foldl setColumn r (optField "bal_stars" (v.map ColValue.ratV)) =
    { r with bal_stars := v.getD r.bal_stars } := by
  cases v <;> rfl

theorem foldl_optField_waddr (r : UserRow) (v : Option String) :
    List.foldl setColumn r (optField "wallet_address" (v.map ColValue.strV)) =
    { r with wallet_address := v.getD r.wallet_address } := by
  cases v <;> rfl

theorem foldl_optField_wstatus (r : UserRow) (v : Option String) :
    List.foldl setColumn r (optField "wallet_status" (v.map ColValue.strV)) =
    { r with wallet_status := v.getD r.wallet_status } := by
  cases v <;> rfl

theorem foldl_optField_minutes (r : UserRow) (v : Option Int) :
    List.foldl setColumn r (optField "minutes_in_app" (v.map ColValue.intV)) =
    { r with minutes_in_app := v.getD r.minutes_in_app } := by
  cases v <;> rfl

/-- The dynamic UPDATE over the vetted fields, expressed as one record
update: every field present in the body is overwritten with its value, every
other column keeps its previous value. -/
theorem foldl_vettedFields (r : UserRow) (b : AdminUpdateBody) :
    List.foldl setColumn r (vettedFields b) =
    { r with
      win_chance := b.win_chance.getD r.win_chance
      gen_level := b.gen_level.getD r.gen_level
      t_wallet_seconds := b.t_wallet_seconds.getD r.t_wallet_seconds
      t_seed_seconds := b.t_seed_seconds.getD r.t_seed_seconds
      bal_mmc := b.bal_mmc.getD r.bal_mmc
      bal_ton := b.bal_ton.getD r.bal_ton
      bal_usdt := b.bal_usdt.getD r.bal_usdt
      bal_stars := b.bal_stars.getD r.bal_stars
      wallet_address := b.wallet_address.getD r.wallet_address
      wallet_status := b.wallet_status.getD r.wallet_status
      minutes_in_app := b.minutes_in_app.getD r.minutes_in_app } := by
  simp only [vettedFields, List.foldl_append, foldl_optField_win,
    foldl_optField_gen, foldl_optField_twallet, foldl_optField_tseed,
    foldl_optField_mmc, foldl_optField_ton, foldl_optField_usdt,
    foldl_optField_stars, foldl_optField_waddr, foldl_optField_wstatus,
    foldl_optField_minutes]

theorem mem_keys_optField (c n : String) (v : Option ColValue) :
    c ∈ (optField n v).map Prod.fst ↔ c = n ∧ v.isSome := by
  cases v <;> simp [optField]

theorem mem_optField (p : String × ColValue) (n : String) (v : Option ColValue) :
    p ∈ optField n v ↔ ∃ x, v = some x ∧ p = (n, x) := by
  cases v <;> simp [optField]

theorem fst_of_mem_optField {p : String × ColValue} {n : String}
    {v : Option ColValue} (h : p ∈ optField n v) :
    p.1 = n ∧ v = some p.2 := by
  cases v with
  | none => simp [optField] at h
  | some x =>
      simp [optField] at h
      subst h
      exact ⟨rfl, rfl⟩

/-- Every entry of the vetted map names one of the eleven allowed columns and
carries the corresponding body field's value. -/
theorem mem_vettedFields_cases {b : AdminUpdateBody} {p : String × ColValue}
    (h : p ∈ vettedFields b) :
    (p.1 = "win_chance" ∧ b.win_chance.map ColValue.ratV = some p.2) ∨
    (p.1 = "gen_level" ∧ b.gen_level.map ColValue.intV = some p.2) ∨
    (p.1 = "t_wallet_seconds" ∧ b.t_wallet_seconds.map ColValue.intV = some p.2) ∨
    (p.1 = "t_seed_seconds" ∧ b.t_seed_seconds.map ColValue.intV = some p.2) ∨
    (p.1 = "bal_mmc" ∧ b.bal_mmc.map ColValue.ratV = some p.2) ∨
    (p.1 = "bal_ton" ∧ b.bal_ton.map ColValue.ratV = some p.2) ∨
    (p.1 = "bal_usdt" ∧ b.bal_usdt.map ColValue.ratV = some p.2) ∨
    (p.1 = "bal_stars" ∧ b.bal_stars.map ColValue.ratV = some p.2) ∨
    (p.1 = "wallet_address" ∧ b.wallet_address.map ColValue.strV = some p.2) ∨
    (p.1 = "wallet_status" ∧ b.wallet_status.map ColValue.strV = some p.2) ∨
    (p.1 = "minutes_in_app" ∧ b.minutes_in_app.map ColValue.intV = some p.2) := by
  simp only [vettedFields, List.mem_append, or_assoc] at h
  rcases h with h | h | h | h | h | h | h | h | h | h | h <;>
    obtain ⟨h1, h2⟩ := fst_of_mem_optField h
  · exact Or.inl ⟨h1, h2⟩
  · exact Or.inr (Or.inl ⟨h1, h2⟩)
  · exact Or.inr (Or.inr (Or.inl ⟨h1, h2⟩))
  · exact Or.inr (Or.inr (Or.inr (Or.inl ⟨h1, h2⟩)))
  · exact Or.inr (Or.inr (Or.inr (Or.inr (Or.inl ⟨h1, h2⟩))))
  · exact Or.inr (Or.inr (Or.inr (Or.inr (Or.inr (Or.inl ⟨h1, h2⟩)))))
  · exact Or.inr (Or.inr (Or.inr (Or.inr (Or.inr (Or.inr (Or.inl ⟨h1, h2⟩))))))
  · exact Or.inr (Or.inr (Or.inr (Or.inr (Or.inr (Or.inr (Or.inr (Or.inl ⟨h1, h2⟩)))))))
  · exact Or.inr (Or.inr (Or.inr (Or.inr (Or.inr (Or.inr (Or.inr (Or.inr (Or.inl ⟨h1, h2⟩))))))))
  · exact Or.inr (Or.inr (Or.inr (Or.inr (Or.inr (Or.inr (Or.inr (Or.inr (Or.inr (Or.inl ⟨h1, h2⟩)))))))))
  · exact Or.inr (Or.inr (Or.inr (Or.inr (Or.inr (Or.inr (Or.inr (Or.inr (Or.inr (Or.inr ⟨h1, h2⟩)))))))))

theorem win_chance_mem_vettedFields {b : AdminUpdateBody} {q : ℚ}
    (h : b.win_chance = some q) :
    ("win_chance", ColValue.ratV q) ∈ vettedFields b := by
  simp [vettedFields, optField, h]

theorem wallet_address_mem_vettedFields {b : AdminUpdateBody} {w : String}
    (h : b.wallet_address = some w) :
    ("wallet_address", ColValue.strV w) ∈ vettedFields b := by
  simp [vettedFields, optField, h]

theorem wallet_status_mem_vettedFields {b : AdminUpdateBody} {w : String}
    (h : b.wallet_status = some w) :
    ("wallet_status", ColValue.strV w) ∈ vettedFields b := by
  simp [vettedFields, optField, h]

theorem minutes_mem_vettedFields {b : AdminUpdateBody} {n : Int}
    (h : b.minutes_in_app = some n) :
    ("minutes_in_app", ColValue.intV n) ∈ vettedFields b := by
  simp [vettedFields, optField, h]

/-- Read one named column of a row (the schema's view of a row, used to state
frame conditions about the dynamic UPDATE). Unknown names read as `none`. -/
def getColumn (r : UserRow) (c : String) : Option ColValue :=
  if c = "user_id" then some (.intV r.user_id)
  else if c = "username" then some (.strV r.username)
  else if c = "first_name" then some (.strV r.first_name)
  else if c = "last_name" then some (.strV r.last_name)
  else if c = "language" then some (.strV r.language)
  else if c = "created_at" then some (.intV r.created_at)
  else if c = "last_seen" then some (.intV r.last_seen)
  else if c = "minutes_in_app" then some (.intV r.minutes_in_app)
  else if c = "wallet_status" then some (.strV r.wallet_status)
  else if c = "wallet_address" then some (.strV r.wallet_address)
  else if c = "win_chance" then some (.ratV r.win_chance)
  else if c = "gen_level" then some (.intV r.gen_level)
  else if c = "t_wallet_seconds" then some (.intV r.t_wallet_seconds)
  else if c = "t_seed_seconds" then some (.intV r.t_seed_seconds)
  else if c = "bal_mmc" then some (.ratV r.bal_mmc)
  else if c = "bal_ton" then some (.ratV r.bal_ton)
  else if c = "bal_usdt" then some (.ratV r.bal_usdt)
  else if c = "bal_stars" then some (.ratV r.bal_stars)
  else none

-- ---------------------------------------------------------------------------
-- Schema layer: db_init / ensure_user_columns of both processes
-- ---------------------------------------------------------------------------

/-- A live SQLite table at column granularity: the ordered column list plus
each row as an association list from column name to value (first match wins,
and keys are unique in every table the system builds). -/
structure Table where
  cols : List String
  rows : List (List (String × ColValue))
deriving DecidableEq, Repr

/-- `ALTER TABLE users ADD COLUMN c ... DEFAULT d`: append the column, and
extend every existing row with the default. -/
def addColumn (t : Table) (c : String) (d : ColValue) : Table :=
  { cols := t.cols ++ [c]
    rows := t.rows.map (fun r => r ++ [(c, d)]) }

/-- One `if c not in existing: add(...)` step of `ensure_user_columns`. -/
def addIfMissing (t : Table) (c : String) (d : ColValue) : Table :=
  if c ∈ t.cols then t else addColumn t c d

/-- Run the existence-checked column adds for a declared column list. -/
def ensureColumns (l : List (String × ColValue)) (t : Table) : Table :=
  l.foldl (fun acc p => addIfMissing acc p.1 p.2) t

/-- The columns `ensure_user_columns` of `api_server.py` maintains, in
source order, with their declared defaults. -/
def apiEnsureList : List (String × ColValue) :=
  [("minutes_in_app", .intV 0),
   ("wallet_status", .strV "idle"),
   ("wallet_address", .strV ""),
   ("t_wallet_seconds", .intV 0),
   ("t_seed_seconds", .intV 900),
   ("bal_mmc", .ratV 0),
   ("bal_ton", .ratV 0),
   ("bal_usdt", .ratV 0),
   ("bal_stars", .ratV 0)]

/-- The columns `ensure_user_columns` of `bot.py` maintains, in source
order: the five engagement columns only, no balance columns. -/
def botEnsureList : List (String × ColValue) :=
  [("minutes_in_app", .intV 0),
   ("wallet_status", .strV "idle"),
   ("wallet_address", .strV ""),
   ("t_wallet_seconds", .intV 0),
   ("t_seed_seconds", .intV 900)]

/-- `ensure_user_columns` of `api_server.py`. -/
def ensure_user_columns (t : Table) : Table := ensureColumns apiEnsureList t

/-- `ensure_user_columns` of `bot.py`. -/
def ensure_user_columns_bot (t : Table) : Table := ensureColumns botEnsureList t

/-- Column list of `api_server.py`'s `CREATE TABLE IF NOT EXISTS users`. -/
def apiCreateCols : List String :=
  ["user_id", "username", "first_name", "last_name", "language",
   "created_at", "last_seen", "minutes_in_app", "wallet_status",
   "wallet_address", "win_chance", "gen_level", "t_wallet_seconds",
   "t_seed_seconds", "bal_mmc", "bal_ton", "bal_usdt", "bal_stars"]

/-- Column list of `bot.py`'s `CREATE TABLE IF NOT EXISTS users`. -/
def botCreateCols : List String :=
  ["user_id", "username", "first_name", "last_name", "language",
   "created_at", "last_seen", "win_chance", "gen_level",
   "bal_mmc", "bal_ton", "bal_usdt", "bal_stars"]

/-- `CREATE TABLE IF NOT EXISTS`: create an empty table with the given
columns only when no `users` table exists yet. -/
def createIfNotExists (db : Option Table) (cols : List String) : Table :=
  match db with
  | some t => t
  | none => { cols := cols, rows := [] }

/-- The api server's startup schema pass: `db_init()` then
`ensure_user_columns()`. -/
def schemaManagerApi (db : Option Table) : Table :=
  ensure_user_columns (createIfNotExists db apiCreateCols)

/-- The bot's startup schema pass: `db_init()` (which itself runs
`ensure_user_columns(cur)` after the CREATE). -/
def schemaManagerBot (db : Option Table) : Table :=
  ensure_user_columns_bot (createIfNotExists db botCreateCols)

/-- The Column Registry's required set: every column of the data model
(identity, timestamps, economy, balances, engagement). -/
def requiredCols : List String := apiCreateCols

-- ---------------------------------------------------------------------------
-- Lemmas about the schema layer
-- ---------------------------------------------------------------------------

theorem mem_cols_addIfMissing {x : String} {t : Table} (c : String) (d : ColValue)
    (h : x ∈ t.cols) : x ∈ (addIfMissing t c d).cols := by
  unfold addIfMissing addColumn
  by_cases hc : c ∈ t.cols
  · simpa [hc] using h
  · simp [hc, List.mem_append]
    exact Or.inl h

theorem self_mem_cols_addIfMissing (t : Table) (c : String) (d : ColValue) :
    c ∈ (addIfMissing t c d).cols := by
  unfold addIfMissing addColumn
  by_cases hc : c ∈ t.cols
  · simpa [hc] using hc
  · simp [hc, List.mem_append]

theorem addIfMissing_of_mem {t : Table} {c : String} (d : ColValue)
    (h : c ∈ t.cols) : addIfMissing t c d = t := by
  unfold addIfMissing
  simp [h]

theorem mem_cols_ensureColumns_of_mem {x : String} (l : List (String × ColValue))
    {t : Table} (h : x ∈ t.cols) : x ∈ (ensureColumns l t).cols := by
  induction l generalizing t with
  | nil => exact h
  | cons p tl ih =>
      exact ih (mem_cols_addIfMissing p.1 p.2 h)

theorem mem_cols_ensureColumns {p : String × ColValue}
    {l : List (String × ColValue)} (t : Table) (h : p ∈ l) :
    p.1 ∈ (ensureColumns l t).cols := by
  induction l generalizing t with
  | nil => cases h
  | cons q tl ih =>
      rcases List.mem_cons.1 h with h1 | h1
      · subst h1
        exact mem_cols_ensureColumns_of_mem tl
          (self_mem_cols_addIfMissing t p.1 p.2)
      · exact ih _ h1

theorem ensureColumns_eq_self {l : List (String × ColValue)} {t : Table}
    (h : ∀ p ∈ l, p.1 ∈ t.cols) : ensureColumns l t = t := by
  induction l with
  | nil => rfl
  | cons q tl ih =>
      unfold ensureColumns
      simp only [List.foldl_cons]
      rw [addIfMissing_of_mem q.2 (h q (List.mem_cons_self q tl))]
      exact ih (fun p hp => h p (List.mem_cons_of_mem q hp))

theorem ensureColumns_idem (l : List (String × ColValue)) (t : Table) :
    ensureColumns l (ensureColumns l t) = ensureColumns l t :=
  ensureColumns_eq_self (fun p hp => mem_cols_ensureColumns t hp)

/-- Read row `i`, column `c` of a table. -/
def rowLookup (t : Table) (i : ℕ) (c : String) : Option ColValue :=
  (t.rows.get? i).bind (fun r => r.lookup c)

theorem lookup_append_of_some {r : List (String × ColValue)} {c : String}
    {v : ColValue} (h : r.lookup c = some v) (l : List (String × ColValue)) :
    (r ++ l).lookup c = some v := by
  induction r with
  | nil => simp [List.lookup] at h
  | cons q tl ih =>
      by_cases hq : c = q.1
      · simp only [List.lookup, List.cons_append,
          show (c == q.1) = true from beq_iff_eq.2 hq] at h ⊢
        exact h
      · simp only [List.lookup, List.cons_append,
          show (c == q.1) = false from beq_false_of_ne hq] at h ⊢
        exact ih h

theorem rowLookup_addIfMissing {t : Table} {i : ℕ} {c : String} {v : ColValue}
    (c' : String) (d : ColValue) (h : rowLookup t i c = some v) :
    rowLookup (addIfMissing t c' d) i c = some v := by
  unfold addIfMissing
  by_cases hc : c' ∈ t.cols
  · simp only [hc, if_true]
    exact h
  · simp only [hc, if_false]
    unfold rowLookup at h ⊢
    cases hr : t.rows.get? i with
    | none => rw [hr] at h; simp at h
    | some r =>
        rw [hr] at h
        simp only [Option.some_bind] at h
        simp only [addColumn, List.get?_map, hr, Option.map_some',
          Option.some_bind]
        exact lookup_append_of_some h _

theorem rowLookup_ensureColumns {l : List (String × ColValue)} {t : Table}
    {i : ℕ} {c : String} {v : ColValue} (h : rowLookup t i c = some v) :
    rowLookup (ensureColumns l t) i c = some v := by
  induction l generalizing t with
  | nil => exact h
  | cons p tl ih =>
      exact ih (rowLookup_addIfMissing p.1 p.2 h)

-- ---------------------------------------------------------------------------
-- Characterisations of the repository operations
-- ---------------------------------------------------------------------------

theorem findUser_updateRow_some {s : Store} {uid : Int} {f : UserRow → UserRow}
    {r0 : UserRow} (hf : ∀ r, (f r).user_id = r.user_id)
    (h : findUser s uid = some r0) :
    findUser (updateRow s uid f) uid = some (f r0) := by
  rw [findUser_updateRow s uid f hf, h]
  rfl

theorem findUser_append_ne {s : Store} {r : UserRow} {uid' : Int}
    (hne : r.user_id ≠ uid') : findUser (s ++ [r]) uid' = findUser s uid' := by
  induction s with
  | nil => simp [findUser, hne]
  | cons q t ih =>
      by_cases hq : q.user_id = uid'
      · simp [findUser, List.cons_append, hq]
      · simp only [findUser, List.cons_append, hq, if_false]
        exact ih

theorem updateRow_comp (s : Store) (uid : Int) (f g : UserRow → UserRow)
    (hf : ∀ r, (f r).user_id = r.user_id) :
    updateRow (updateRow s uid f) uid g = updateRow s uid (fun r => g (f r)) := by
  unfold updateRow
  rw [List.map_map]
  apply List.map_congr_left
  intro r _
  by_cases hr : r.user_id = uid
  · simp [Function.comp, hr, hf r]
  · simp [Function.comp, hr]

theorem updateRow_congr {s : Store} {uid : Int} {f g : UserRow → UserRow}
    (h : ∀ r, f r = g r) : updateRow s uid f = updateRow s uid g := by
  unfold updateRow
  apply List.map_congr_left
  intro r _
  by_cases hr : r.user_id = uid <;> simp [hr, h r]

/-- The profile refresh `upsert_user` performs on an existing row. -/
def profileRefresh (p : PingBody) (now : Int) (r : UserRow) : UserRow :=
  { r with
    username := p.username.getD ""
    first_name := p.first_name.getD ""
    last_name := p.last_name.getD ""
    language := p.language.getD ""
    last_seen := now }

theorem upsert_user_not_found {s : Store} {p : PingBody} (now : Int)
    (h : findUser s p.user_id = none) :
    findUser (upsert_user s now p) p.user_id = some (freshUserRow p now) := by
  unfold upsert_user
  rw [h]
  exact findUser_self_append h _ rfl

theorem upsert_user_found {s : Store} {p : PingBody} {r0 : UserRow} (now : Int)
    (h : findUser s p.user_id = some r0) :
    findUser (upsert_user s now p) p.user_id = some (profileRefresh p now r0) := by
  unfold upsert_user
  rw [h]
  exact findUser_updateRow_some (fun r => rfl) h

theorem upsert_user_frame {s : Store} {p : PingBody} (now : Int) (uid' : Int)
    (hne : uid' ≠ p.user_id) :
    findUser (upsert_user s now p) uid' = findUser s uid' := by
  unfold upsert_user
  cases h : findUser s p.user_id with
  | some r0 => exact findUser_updateRow_ne s p.user_id uid' _ (fun r => rfl) hne
  | none => exact findUser_append_ne (fun hh => hne hh.symm)

/-- What one `/event` call writes into a row matching the requested id, given
that the pre-read of the target row returned `r0`. -/
def evFun (r0 : UserRow) (now : Int) (b : EventBody) (u : UserRow) : UserRow :=
  { u with
    last_seen := now
    minutes_in_app :=
      match b.minutes_delta with
      | some d => if d ≠ 0 ∧ d > 0 then r0.minutes_in_app + d
                  else u.minutes_in_app
      | none => u.minutes_in_app
    wallet_address :=
      match b.wallet_address with
      | some w => if w ≠ "" then w else u.wallet_address
      | none => u.wallet_address
    wallet_status :=
      match b.wallet_status with
      | some w => if w ≠ "" then w else u.wallet_status
      | none => u.wallet_status }

/-- The row produced by one `/event` call on the target row `r0`. -/
def eventRow (r0 : UserRow) (now : Int) (b : EventBody) : UserRow :=
  evFun r0 now b r0


theorem event_eq {s : Store} {now : Int} {b : EventBody} {r0 : UserRow}
    (h : findUser s b.user_id = some r0) :
    event s now b = .ok (updateRow s b.user_id (evFun r0 now b)) := by
  unfold event
  rw [h]
  rcases b with ⟨uid, ev, ph, md, wa, ws⟩
  cases md with
  | none =>
      cases wa with
      | none =>
          cases ws with
          | none =>
              dsimp only
              exact congrArg Except.ok (updateRow_congr (fun r => by
                simp [evFun]))
          | some w =>
              by_cases hw : w ≠ ""
              · dsimp only
                rw [if_pos hw]
                rw [updateRow_comp]
                exact congrArg Except.ok (updateRow_congr (fun r => by
                  simp [evFun, hw]))
                all_goals exact fun r => rfl
              · dsimp only
                rw [if_neg hw]
                exact congrArg Except.ok (updateRow_congr (fun r => by
                  simp [evFun, hw]))
      | some v =>
          by_cases hv : v ≠ ""
          · cases ws with
            | none =>
                dsimp only
                rw [if_pos hv]
                rw [updateRow_comp]
                exact congrArg Except.ok (updateRow_congr (fun r => by
                  simp [evFun, hv]))
                all_goals exact fun r => rfl
            | some w =>
                by_cases hw : w ≠ ""
                · dsimp only
                  rw [if_pos hv, if_pos hw]
                  rw [updateRow_comp]
                  rw [updateRow_comp]
                  exact congrArg Except.ok (updateRow_congr (fun r => by
                    simp [evFun, hv, hw]))
                  all_goals exact fun r => rfl
                · dsimp only
                  rw [if_pos hv, if_neg hw]
                  rw [updateRow_comp]
                  exact congrArg Except.ok (updateRow_congr (fun r => by
                    simp [evFun, hv, hw]))
                  all_goals exact fun r => rfl
          · cases ws with
            | none =>
                dsimp only
                rw [if_neg hv]
                exact congrArg Except.ok (updateRow_congr (fun r => by
                  simp [evFun, hv]))
            | some w =>
                by_cases hw : w ≠ ""
                · dsimp only
                  rw [if_neg hv, if_pos hw]
                  rw [updateRow_comp]
                  exact congrArg Except.ok (updateRow_congr (fun r => by
                    simp [evFun, hv, hw]))
                  all_goals exact fun r => rfl
                · dsimp only
                  rw [if_neg hv, if_neg hw]
                  exact congrArg Except.ok (updateRow_congr (fun r => by
                    simp [evFun, hv, hw]))
  | some d =>
      by_cases hd : d ≠ 0 ∧ d > 0
      · cases wa with
        | none =>
            cases ws with
            | none =>
                dsimp only
                rw [if_pos hd]
                rw [updateRow_comp]
                exact congrArg Except.ok (updateRow_congr (fun r => by
                  simp [evFun, hd]))
                all_goals exact fun r => rfl
            | some w =>
                by_cases hw : w ≠ ""
                · dsimp only
                  rw [if_pos hd, if_pos hw]
                  rw [updateRow_comp]
                  rw [updateRow_comp]
                  exact congrArg Except.ok (updateRow_congr (fun r => by
                    simp [evFun, hd, hw]))
                  all_goals exact fun r => rfl
                · dsimp only
                  rw [if_pos hd, if_neg hw]
                  rw [updateRow_comp]
                  exact congrArg Except.ok (updateRow_congr (fun r => by
                    simp [evFun, hd, hw]))
                  all_goals exact fun r => rfl
        | some v =>
            by_cases hv : v ≠ ""
            · cases ws with
              | none =>
                  dsimp only
                  rw [if_pos hd, if_pos hv]
                  rw [updateRow_comp]
                  rw [updateRow_comp]
                  exact congrArg Except.ok (updateRow_congr (fun r => by
                    simp [evFun, hd, hv]))
                  all_goals exact fun r => rfl
              | some w =>
                  by_cases hw : w ≠ ""
                  · dsimp only
                    rw [if_pos hd, if_pos hv, if_pos hw]
                    rw [updateRow_comp]
                    rw [updateRow_comp]
                    rw [updateRow_comp]
                    exact congrArg Except.ok (updateRow_congr (fun r => by
                      simp [evFun, hd, hv, hw]))
                    all_goals exact fun r => rfl
                  · dsimp only
                    rw [if_pos hd, if_pos hv, if_neg hw]
                    rw [updateRow_comp]
                    rw [updateRow_comp]
                    exact congrArg Except.ok (updateRow_congr (fun r => by
                      simp [evFun, hd, hv, hw]))
                    all_goals exact fun r => rfl
            · cases ws with
              | none =>
                  dsimp only
                  rw [if_pos hd, if_neg hv]
                  rw [updateRow_comp]
                  exact congrArg Except.ok (updateRow_congr (fun r => by
                    simp [evFun, hd, hv]))
                  all_goals exact fun r => rfl
              | some w =>
                  by_cases hw : w ≠ ""
                  · dsimp only
                    rw [if_pos hd, if_neg hv, if_pos hw]
                    rw [updateRow_comp]
                    rw [updateRow_comp]
                    exact congrArg Except.ok (updateRow_congr (fun r => by
                      simp [evFun, hd, hv, hw]))
                    all_goals exact fun r => rfl
                  · dsimp only
                    rw [if_pos hd, if_neg hv, if_neg hw]
                    rw [updateRow_comp]
                    exact congrArg Except.ok (updateRow_congr (fun r => by
                      simp [evFun, hd, hv, hw]))
                    all_goals exact fun r => rfl
      · cases wa with
        | none =>
            cases ws with
            | none =>
                dsimp only
                rw [if_neg hd]
                exact congrArg Except.ok (updateRow_congr (fun r => by
                  simp [evFun, hd]))
            | some w =>
                by_cases hw : w ≠ ""
                · dsimp only
                  rw [if_neg hd, if_pos hw]
                  rw [updateRow_comp]
                  exact congrArg Except.ok (updateRow_congr (fun r => by
                    simp [evFun, hd, hw]))
                  all_goals exact fun r => rfl
                · dsimp only
                  rw [if_neg hd, if_neg hw]
                  exact congrArg Except.ok (updateRow_congr (fun r => by
                    simp [evFun, hd, hw]))
        | some v =>
            by_cases hv : v ≠ ""
            · cases ws with
              | none =>
                  dsimp only
                  rw [if_neg hd, if_pos hv]
                  rw [updateRow_comp]
                  exact congrArg Except.ok (updateRow_congr (fun r => by
                    simp [evFun, hd, hv]))
                  all_goals exact fun r => rfl
              | some w =>
                  by_cases hw : w ≠ ""
                  · dsimp only
                    rw [if_neg hd, if_pos hv, if_pos hw]
                    rw [updateRow_comp]
                    rw [updateRow_comp]
                    exact congrArg Except.ok (updateRow_congr (fun r => by
                      simp [evFun, hd, hv, hw]))
                    all_goals exact fun r => rfl
                  · dsimp only
                    rw [if_neg hd, if_pos hv, if_neg hw]
                    rw [updateRow_comp]
                    exact congrArg Except.ok (updateRow_congr (fun r => by
                      simp [evFun, hd, hv, hw]))
                    all_goals exact fun r => rfl
            · cases ws with
              | none =>
                  dsimp only
                  rw [if_neg hd, if_neg hv]
                  exact congrArg Except.ok (updateRow_congr (fun r => by
                    simp [evFun, hd, hv]))
              | some w =>
                  by_cases hw : w ≠ ""
                  · dsimp only
                    rw [if_neg hd, if_neg hv, if_pos hw]
                    rw [updateRow_comp]
                    exact congrArg Except.ok (updateRow_congr (fun r => by
                      simp [evFun, hd, hv, hw]))
                    all_goals exact fun r => rfl
                  · dsimp only
                    rw [if_neg hd, if_neg hv, if_neg hw]
                    exact congrArg Except.ok (updateRow_congr (fun r => by
                      simp [evFun, hd, hv, hw]))

theorem event_ok {s : Store} {now : Int} {b : EventBody} {r0 : UserRow}
    (h : findUser s b.user_id = some r0) :
    ∃ s', event s now b = .ok s' ∧
      findUser s' b.user_id = some (eventRow r0 now b) ∧
      ∀ uid', uid' ≠ b.user_id → findUser s' uid' = findUser s uid' := by
  refine ⟨_, event_eq h, ?_, ?_⟩
  · exact findUser_updateRow_some (fun r => rfl) h
  · intro uid' hne
    exact findUser_updateRow_ne _ _ _ _ (fun r => rfl) hne

theorem gen_level_mem_vettedFields {b : AdminUpdateBody} {x : Int}
    (h : b.gen_level = some x) :
    ("gen_level", ColValue.intV x) ∈ vettedFields b := by
  simp [vettedFields, optField, h]

theorem t_wallet_seconds_mem_vettedFields {b : AdminUpdateBody} {x : Int}
    (h : b.t_wallet_seconds = some x) :
    ("t_wallet_seconds", ColValue.intV x) ∈ vettedFields b := by
  simp [vettedFields, optField, h]

theorem t_seed_seconds_mem_vettedFields {b : AdminUpdateBody} {x : Int}
    (h : b.t_seed_seconds = some x) :
    ("t_seed_seconds", ColValue.intV x) ∈ vettedFields b := by
  simp [vettedFields, optField, h]

theorem bal_mmc_mem_vettedFields {b : AdminUpdateBody} {x : ℚ}
    (h : b.bal_mmc = some x) :
    ("bal_mmc", ColValue.ratV x) ∈ vettedFields b := by
  simp [vettedFields, optField, h]

theorem bal_ton_mem_vettedFields {b : AdminUpdateBody} {x : ℚ}
    (h : b.bal_ton = some x) :
    ("bal_ton", ColValue.ratV x) ∈ vettedFields b := by
  simp [vettedFields, optField, h]

theorem bal_usdt_mem_vettedFields {b : AdminUpdateBody} {x : ℚ}
    (h : b.bal_usdt = some x) :
    ("bal_usdt", ColValue.ratV x) ∈ vettedFields b := by
  simp [vettedFields, optField, h]

theorem bal_stars_mem_vettedFields {b : AdminUpdateBody} {x : ℚ}
    (h : b.bal_stars = some x) :
    ("bal_stars", ColValue.ratV x) ∈ vettedFields b := by
  simp [vettedFields, optField, h]

theorem win_chance_none_of_not_key {b : AdminUpdateBody}
    (h : "win_chance" ∉ (vettedFields b).map Prod.fst) : b.win_chance = none := by
  cases hb : b.win_chance with
  | none => rfl
  | some a => exact absurd (List.mem_map.2 ⟨_, win_chance_mem_vettedFields hb, rfl⟩) h

theorem gen_level_none_of_not_key {b : AdminUpdateBody}
    (h : "gen_level" ∉ (vettedFields b).map Prod.fst) : b.gen_level = none := by
  cases hb : b.gen_level with
  | none => rfl
  | some a => exact absurd (List.mem_map.2 ⟨_, gen_level_mem_vettedFields hb, rfl⟩) h

theorem t_wallet_seconds_none_of_not_key {b : AdminUpdateBody}
    (h : "t_wallet_seconds" ∉ (vettedFields b).map Prod.fst) : b.t_wallet_seconds = none := by
  cases hb : b.t_wallet_seconds with
  | none => rfl
  | some a => exact absurd (List.mem_map.2 ⟨_, t_wallet_seconds_mem_vettedFields hb, rfl⟩) h

theorem t_seed_seconds_none_of_not_key {b : AdminUpdateBody}
    (h : "t_seed_seconds" ∉ (vettedFields b).map Prod.fst) : b.t_seed_seconds = none := by
  cases hb : b.t_seed_seconds with
  | none => rfl
  | some a => exact absurd (List.mem_map.2 ⟨_, t_seed_seconds_mem_vettedFields hb, rfl⟩) h

theorem bal_mmc_none_of_not_key {b : AdminUpdateBody}
    (h : "bal_mmc" ∉ (vettedFields b).map Prod.fst) : b.bal_mmc = none := by
  cases hb : b.bal_mmc with
  | none => rfl
  | some a => exact absurd (List.mem_map.2 ⟨_, bal_mmc_mem_vettedFields hb, rfl⟩) h

theorem bal_ton_none_of_not_key {b : AdminUpdateBody}
    (h : "bal_ton" ∉ (vettedFields b).map Prod.fst) : b.bal_ton = none := by
  cases hb : b.bal_ton with
  | none => rfl
  | some a => exact absurd (List.mem_map.2 ⟨_, bal_ton_mem_vettedFields hb, rfl⟩) h

theorem bal_usdt_none_of_not_key {b : AdminUpdateBody}
    (h : "bal_usdt" ∉ (vettedFields b).map Prod.fst) : b.bal_usdt = none := by
  cases hb : b.bal_usdt with
  | none => rfl
  | some a => exact absurd (List.mem_map.2 ⟨_, bal_usdt_mem_vettedFields hb, rfl⟩) h

theorem bal_stars_none_of_not_key {b : AdminUpdateBody}
    (h : "bal_stars" ∉ (vettedFields b).map Prod.fst) : b.bal_stars = none := by
  cases hb : b.bal_stars with
  | none => rfl
  | some a => exact absurd (List.mem_map.2 ⟨_, bal_stars_mem_vettedFields hb, rfl⟩) h

theorem wallet_address_none_of_not_key {b : AdminUpdateBody}
    (h : "wallet_address" ∉ (vettedFields b).map Prod.fst) : b.wallet_address = none := by
  cases hb : b.wallet_address with
  | none => rfl
  | some a => exact absurd (List.mem_map.2 ⟨_, wallet_address_mem_vettedFields hb, rfl⟩) h

theorem wallet_status_none_of_not_key {b : AdminUpdateBody}
    (h : "wallet_status" ∉ (vettedFields b).map Prod.fst) : b.wallet_status = none := by
  cases hb : b.wallet_status with
  | none => rfl
  | some a => exact absurd (List.mem_map.2 ⟨_, wallet_status_mem_vettedFields hb, rfl⟩) h

theorem minutes_in_app_none_of_not_key {b : AdminUpdateBody}
    (h : "minutes_in_app" ∉ (vettedFields b).map Prod.fst) : b.minutes_in_app = none := by
  cases hb : b.minutes_in_app with
  | none => rfl
  | some a => exact absurd (List.mem_map.2 ⟨_, minutes_mem_vettedFields hb, rfl⟩) h

set_option maxHeartbeats 1600000 in
/-- Columns whose name is not a key of the vetted map read the same before
and after the dynamic UPDATE. -/
theorem getColumn_foldl_frame {b : AdminUpdateBody} {r0 : UserRow} {c : String}
    (hc : c ∉ (vettedFields b).map Prod.fst) :
    getColumn (List.foldl setColumn r0 (vettedFields b)) c = getColumn r0 c := by
  rw [foldl_vettedFields]
  by_cases h1 : c = "user_id"
  · subst h1
    simp [getColumn]
  by_cases h2 : c = "username"
  · subst h2
    simp [getColumn]
  by_cases h3 : c = "first_name"
  · subst h3
    simp [getColumn]
  by_cases h4 : c = "last_name"
  · subst h4
    simp [getColumn]
  by_cases h5 : c = "language"
  · subst h5
    simp [getColumn]
  by_cases h6 : c = "created_at"
  · subst h6
    simp [getColumn]
  by_cases h7 : c = "last_seen"
  · subst h7
    simp [getColumn]
  by_cases h8 : c = "minutes_in_app"
  · have hnone := minutes_in_app_none_of_not_key (h8 ▸ hc)
    subst h8
    simp [getColumn, hnone]
  by_cases h9 : c = "wallet_status"
  · have hnone := wallet_status_none_of_not_key (h9 ▸ hc)
    subst h9
    simp [getColumn, hnone]
  by_cases h10 : c = "wallet_address"
  · have hnone := wallet_address_none_of_not_key (h10 ▸ hc)
    subst h10
    simp [getColumn, hnone]
  by_cases h11 : c = "win_chance"
  · have hnone := win_chance_none_of_not_key (h11 ▸ hc)
    subst h11
    simp [getColumn, hnone]
  by_cases h12 : c = "gen_level"
  · have hnone := gen_level_none_of_not_key (h12 ▸ hc)
    subst h12
    simp [getColumn, hnone]
  by_cases h13 : c = "t_wallet_seconds"
  · have hnone := t_wallet_seconds_none_of_not_key (h13 ▸ hc)
    subst h13
    simp [getColumn, hnone]
  by_cases h14 : c = "t_seed_seconds"
  · have hnone := t_seed_seconds_none_of_not_key (h14 ▸ hc)
    subst h14
    simp [getColumn, hnone]
  by_cases h15 : c = "bal_mmc"
  · have hnone := bal_mmc_none_of_not_key (h15 ▸ hc)
    subst h15
    simp [getColumn, hnone]
  by_cases h16 : c = "bal_ton"
  · have hnone := bal_ton_none_of_not_key (h16 ▸ hc)
    subst h16
    simp [getColumn, hnone]
  by_cases h17 : c = "bal_usdt"
  · have hnone := bal_usdt_none_of_not_key (h17 ▸ hc)
    subst h17
    simp [getColumn, hnone]
  by_cases h18 : c = "bal_stars"
  · have hnone := bal_stars_none_of_not_key (h18 ▸ hc)
    subst h18
    simp [getColumn, hnone]
  simp [getColumn, h1, h2, h3, h4, h5, h6, h7, h8, h9, h10, h11, h12, h13, h14, h15, h16, h17, h18]

-- ---------------------------------------------------------------------------
-- Remaining helper lemmas and concrete fixtures
-- ---------------------------------------------------------------------------

theorem clamp_win_eq (q : ℚ) : clamp_win (some q) = some (min 100 (max 0 q)) := by
  simp only [clamp_win, Option.map_some']
  congr 1
  rcases lt_or_le q 0 with h0 | h0
  · rw [if_pos h0, max_eq_left h0.le, min_eq_right]
    norm_num
  · rw [if_neg (not_lt.2 h0), max_eq_right h0]
    rcases lt_or_le 100 q with h1 | h1
    · rw [if_pos h1, min_eq_left h1.le]
    · rw [if_neg (not_lt.2 h1), min_eq_right h1]

theorem iterate_eq_of_idem {α : Type _} {f : α → α} (hf : ∀ x, f (f x) = f x) :
    ∀ (n : ℕ), 1 ≤ n → ∀ x, f^[n] x = f x := by
  intro n
  induction n with
  | zero => intro hn; omega
  | succ m ih =>
      intro _ x
      rw [Function.iterate_succ_apply]
      rcases Nat.lt_or_ge m 1 with hm | hm
      · have hm0 : m = 0 := by omega
        subst hm0
        rfl
      · rw [ih hm (f x), hf x]

theorem eventRow_last_seen (r0 : UserRow) (now : Int) (b : EventBody) :
    (eventRow r0 now b).last_seen = now := rfl

theorem eventRow_minutes_pos {b : EventBody} {d : Int} (r0 : UserRow) (now : Int)
    (hmd : b.minutes_delta = some d) (hd : 0 < d) :
    (eventRow r0 now b).minutes_in_app = r0.minutes_in_app + d := by
  have hne : d ≠ 0 := Ne.symm (ne_of_lt hd)
  simp [eventRow, evFun, hmd, hne, hd]

theorem eventRow_minutes_ge (r0 : UserRow) (now : Int) (b : EventBody) :
    r0.minutes_in_app ≤ (eventRow r0 now b).minutes_in_app := by
  rcases hmd : b.minutes_delta with _ | d
  · simp [eventRow, evFun, hmd]
  · by_cases hd : d ≠ 0 ∧ d > 0
    · simp only [eventRow, evFun, hmd]
      rw [if_pos hd]
      omega
    · simp only [eventRow, evFun, hmd]
      rw [if_neg hd]

theorem eventRow_waddr_pos {b : EventBody} {w : String} (r0 : UserRow) (now : Int)
    (h : b.wallet_address = some w) (hw : w ≠ "") :
    (eventRow r0 now b).wallet_address = w := by
  simp [eventRow, evFun, h, hw]

theorem eventRow_waddr_skip {b : EventBody} (r0 : UserRow) (now : Int)
    (h : b.wallet_address = none ∨ b.wallet_address = some "") :
    (eventRow r0 now b).wallet_address = r0.wallet_address := by
  rcases h with h | h <;> simp [eventRow, evFun, h]

theorem eventRow_wstatus_pos {b : EventBody} {w : String} (r0 : UserRow) (now : Int)
    (h : b.wallet_status = some w) (hw : w ≠ "") :
    (eventRow r0 now b).wallet_status = w := by
  simp [eventRow, evFun, h, hw]

theorem eventRow_wstatus_skip {b : EventBody} (r0 : UserRow) (now : Int)
    (h : b.wallet_status = none ∨ b.wallet_status = some "") :
    (eventRow r0 now b).wallet_status = r0.wallet_status := by
  rcases h with h | h <;> simp [eventRow, evFun, h]

/-- An admin body carrying only a `user_id` (every optional field absent). -/
def emptyAdminBody (uid : Int) : AdminUpdateBody :=
  { user_id := uid, win_chance := none, gen_level := none,
    t_wallet_seconds := none, t_seed_seconds := none, bal_mmc := none,
    bal_ton := none, bal_usdt := none, bal_stars := none,
    wallet_address := none, wallet_status := none, minutes_in_app := none }

/-- A ping body carrying only a `user_id`. -/
def pingOf (uid : Int) : PingBody :=
  { user_id := uid, username := none, first_name := none, last_name := none,
    language := none }

/-- An event body carrying only a `user_id` and a `minutes_delta`. -/
def eventOf (uid : Int) (d : Option Int) : EventBody :=
  { user_id := uid, event := "open", phase := none, minutes_delta := d,
    wallet_address := none, wallet_status := none }

/-- A one-row store whose only user is id 1 with all column defaults. -/
def sampleStore : Store := [freshUserRow (pingOf 1) 0]

/-- A row for user 7 with 10 accumulated minutes. -/
def rowTen : UserRow := { freshUserRow (pingOf 7) 0 with minutes_in_app := 10 }

/-- A `users` table as an early schema revision would have left it: only the
identity and timestamp columns. -/
def legacyTable : Table :=
  { cols := ["user_id", "username", "first_name", "last_name", "language",
             "created_at", "last_seen"]
    rows := [] }

/-- A tiny table used to exercise reconciliation on concrete data. -/
def tinyTable : Table :=
  { cols := ["user_id"], rows := [[("user_id", ColValue.intV 7)]] }

-- ---------------------------------------------------------------------------
-- Claims
-- ---------------------------------------------------------------------------

/-- Claim C1, counterexample: the claim says `gen_level = 10000` vets to 999,
but the `non_negative_ints` validator applies no upper clamp: the vetted value
is 10000, and 10000 is not 999.  (Likewise nothing clamps the duration fields
to 31,536,000.) -/
theorem claim_C1_counterexample :
    (validateAdminBody { emptyAdminBody 1 with gen_level := some 10000 }).gen_level
      = some 10000 ∧ (10000 : Int) ≠ 999 := by
  constructor
  · rfl
  · decide

/-- Claim C1 (amended): `win_chance` is coerced to float and clamped to
[0, 100] (150 vets to 100.0, -5 vets to 0.0); the integer fields `gen_level`,
`t_wallet_seconds`, `t_seed_seconds` and `minutes_in_app` are coerced to
integer and clamped to at least 0, with no domain upper clamp — in
particular `gen_level = 10000` vets to 10000. -/
theorem claim_C1 :
    (∀ (raw : AdminUpdateBody) (q : ℚ), raw.win_chance = some q →
      (validateAdminBody raw).win_chance = some (min 100 (max 0 q)) ∧
      (0 : ℚ) ≤ min 100 (max 0 q) ∧ min 100 (max 0 q) ≤ 100) ∧
    (∀ (raw : AdminUpdateBody) (n : Int),
      (raw.gen_level = some n →
        (validateAdminBody raw).gen_level = some (max 0 n)) ∧
      (raw.t_wallet_seconds = some n →
        (validateAdminBody raw).t_wallet_seconds = some (max 0 n)) ∧
      (raw.t_seed_seconds = some n →
        (validateAdminBody raw).t_seed_seconds = some (max 0 n)) ∧
      (raw.minutes_in_app = some n →
        (validateAdminBody raw).minutes_in_app = some (max 0 n))) ∧
    clamp_win (some 150) = some 100 ∧
    clamp_win (some (-5)) = some 0 ∧
    non_negative_ints (some 10000) = some 10000 := by
  refine ⟨?_, ?_, ?_, ?_, ?_⟩
  · intro raw q h
    refine ⟨?_, ?_, min_le_left _ _⟩
    · simp only [validateAdminBody, h, clamp_win_eq]
    · exact le_min (by norm_num) (le_max_left 0 q)
  · intro raw n
    refine ⟨fun h => ?_, fun h => ?_, fun h => ?_, fun h => ?_⟩ <;>
      simp [validateAdminBody, non_negative_ints, h]
  · rw [clamp_win_eq]
    norm_num
  · rw [clamp_win_eq]
    norm_num
  · simp [non_negative_ints]

/-- Witness for C1 at concrete inputs. -/
theorem claim_C1_witness :
    (validateAdminBody { emptyAdminBody 1 with win_chance := some 150 }).win_chance
        = some (min 100 (max 0 (150 : ℚ))) ∧
    (validateAdminBody { emptyAdminBody 1 with gen_level := some 10000 }).gen_level
        = some (max 0 (10000 : Int)) :=
  ⟨(claim_C1.1 { emptyAdminBody 1 with win_chance := some 150 } 150 rfl).1,
   (claim_C1.2.1 { emptyAdminBody 1 with gen_level := some 10000 } 10000).1 rfl⟩

/-- Claim C2, counterexample: the claim says the string fields are trimmed
and an empty-after-trim value is omitted from the vetted map.  In fact no
validator touches them: an explicit empty-string `wallet_address` appears in
the vetted map (the column would be written blank), and whitespace is kept
verbatim. -/
theorem claim_C2_counterexample :
    ("wallet_address", ColValue.strV "") ∈
      vettedFields (validateAdminBody
        { emptyAdminBody 1 with wallet_address := some "" }) ∧
    (validateAdminBody { emptyAdminBody 1 with wallet_status := some "  x  " }).wallet_status
      = some "  x  " := by
  constructor
  · decide
  · rfl

/-- Claim C2 (amended): the string fields `wallet_address` and
`wallet_status` pass through the Field Validation Pipeline unmodified (no
trimming); a field is omitted from the vetted column-value map exactly when
it is absent (null) in the body — a present value, even the empty string, is
written as given. -/
theorem claim_C2 :
    (∀ raw : AdminUpdateBody,
      (validateAdminBody raw).wallet_address = raw.wallet_address ∧
      (validateAdminBody raw).wallet_status = raw.wallet_status) ∧
    (∀ (b : AdminUpdateBody) (w : String), b.wallet_address = some w →
      ("wallet_address", ColValue.strV w) ∈ vettedFields b) ∧
    (∀ (b : AdminUpdateBody) (w : String), b.wallet_status = some w →
      ("wallet_status", ColValue.strV w) ∈ vettedFields b) ∧
    (∀ b : AdminUpdateBody, b.wallet_address = none →
      "wallet_address" ∉ (vettedFields b).map Prod.fst) ∧
    (∀ b : AdminUpdateBody, b.wallet_status = none →
      "wallet_status" ∉ (vettedFields b).map Prod.fst) := by
  refine ⟨fun raw => ⟨rfl, rfl⟩, ?_, ?_, ?_, ?_⟩
  · intro b w h
    exact wallet_address_mem_vettedFields h
  · intro b w h
    exact wallet_status_mem_vettedFields h
  · intro b h hmem
    obtain ⟨p, hp, hfst⟩ := List.mem_map.1 hmem
    rcases mem_vettedFields_cases hp with
      ⟨h1, h2⟩|⟨h1, h2⟩|⟨h1, h2⟩|⟨h1, h2⟩|⟨h1, h2⟩|⟨h1, h2⟩|⟨h1, h2⟩|⟨h1, h2⟩|⟨h1, h2⟩|⟨h1, h2⟩|⟨h1, h2⟩ <;>
      rw [hfst] at h1 <;> simp_all
  · intro b h hmem
    obtain ⟨p, hp, hfst⟩ := List.mem_map.1 hmem
    rcases mem_vettedFields_cases hp with
      ⟨h1, h2⟩|⟨h1, h2⟩|⟨h1, h2⟩|⟨h1, h2⟩|⟨h1, h2⟩|⟨h1, h2⟩|⟨h1, h2⟩|⟨h1, h2⟩|⟨h1, h2⟩|⟨h1, h2⟩|⟨h1, h2⟩ <;>
      rw [hfst] at h1 <;> simp_all

/-- Witness for C2 at concrete inputs. -/
theorem claim_C2_witness :
    ("wallet_address", ColValue.strV "tonwallet") ∈
      vettedFields { emptyAdminBody 1 with wallet_address := some "tonwallet" } ∧
    "wallet_status" ∉
      (vettedFields { emptyAdminBody 1 with wallet_address := some "tonwallet" }).map
        Prod.fst :=
  ⟨claim_C2.2.1 { emptyAdminBody 1 with wallet_address := some "tonwallet" }
      "tonwallet" rfl,
   claim_C2.2.2.2.2 { emptyAdminBody 1 with wallet_address := some "tonwallet" } rfl⟩

/-- Claim C3: `touch` on an unseen id inserts a row with
`created_at = last_seen = now` and the given profile; on a seen id it
rewrites exactly the four profile columns and `last_seen` (all other columns,
`created_at` included, are untouched); hence touching twice leaves the second
call's profile and the first call's `created_at`. -/
theorem claim_C3 :
    (∀ (s : Store) (now : Int) (p : PingBody),
      findUser s p.user_id = none →
      ∃ r, findUser (upsert_user s now p) p.user_id = some r ∧
        r.created_at = now ∧ r.last_seen = now ∧
        r.username = p.username.getD "" ∧ r.first_name = p.first_name.getD "" ∧
        r.last_name = p.last_name.getD "" ∧ r.language = p.language.getD "") ∧
    (∀ (s : Store) (now : Int) (p : PingBody) (r0 : UserRow),
      findUser s p.user_id = some r0 →
      findUser (upsert_user s now p) p.user_id = some (profileRefresh p now r0) ∧
      (profileRefresh p now r0).created_at = r0.created_at ∧
      (profileRefresh p now r0).minutes_in_app = r0.minutes_in_app ∧
      (profileRefresh p now r0).wallet_address = r0.wallet_address) ∧
    (∀ (s : Store) (now1 now2 : Int) (p1 p2 : PingBody),
      p2.user_id = p1.user_id →
      findUser s p1.user_id = none →
      ∃ r, findUser (upsert_user (upsert_user s now1 p1) now2 p2) p1.user_id
          = some r ∧
        r.username = p2.username.getD "" ∧ r.first_name = p2.first_name.getD "" ∧
        r.last_name = p2.last_name.getD "" ∧ r.language = p2.language.getD "" ∧
        r.created_at = now1 ∧ r.last_seen = now2) := by
  refine ⟨?_, ?_, ?_⟩
  · intro s now p h
    exact ⟨freshUserRow p now, upsert_user_not_found now h,
      rfl, rfl, rfl, rfl, rfl, rfl⟩
  · intro s now p r0 h
    exact ⟨upsert_user_found now h, rfl, rfl, rfl⟩
  · intro s now1 now2 p1 p2 hup h
    have h1 := upsert_user_not_found now1 h
    have h2 : findUser (upsert_user s now1 p1) p2.user_id
        = some (freshUserRow p1 now1) := by
      rw [hup]; exact h1
    have h3 := upsert_user_found now2 h2
    rw [hup] at h3
    exact ⟨profileRefresh p2 now2 (freshUserRow p1 now1), h3,
      rfl, rfl, rfl, rfl, rfl, rfl⟩

/-- Witness for C3: touch user 42 twice with different usernames. -/
theorem claim_C3_witness :
    ∃ r, findUser
        (upsert_user
          (upsert_user [] 100 { pingOf 42 with username := some "first" })
          200 { pingOf 42 with username := some "second" }) 42 = some r ∧
      r.username = "second" ∧ r.created_at = 100 ∧ r.last_seen = 200 := by
  obtain ⟨r, hr, hu, _, _, _, hc, hl⟩ :=
    claim_C3.2.2 [] 100 200 { pingOf 42 with username := some "first" }
      { pingOf 42 with username := some "second" } rfl rfl
  exact ⟨r, hr, hu, hc, hl⟩

/-- Claim C4: schema reconciliation (both processes' `ensure_user_columns`)
is idempotent — N ≥ 1 runs give the same table as one — and no value already
present in an existing row is altered by a run. -/
theorem claim_C4 :
    ∀ (t : Table) (n : ℕ), 1 ≤ n →
      (ensure_user_columns^[n] t = ensure_user_columns t ∧
       ensure_user_columns_bot^[n] t = ensure_user_columns_bot t) ∧
      (∀ (i : ℕ) (c : String) (v : ColValue), rowLookup t i c = some v →
        rowLookup (ensure_user_columns t) i c = some v ∧
        rowLookup (ensure_user_columns_bot t) i c = some v) := by
  intro t n hn
  refine ⟨⟨?_, ?_⟩, ?_⟩
  · exact iterate_eq_of_idem (fun x => ensureColumns_idem apiEnsureList x) n hn t
  · exact iterate_eq_of_idem (fun x => ensureColumns_idem botEnsureList x) n hn t
  · intro i c v h
    exact ⟨rowLookup_ensureColumns h, rowLookup_ensureColumns h⟩

/-- Witness for C4: two runs on a one-row table equal one run, and the
existing cell survives. -/
theorem claim_C4_witness :
    ensure_user_columns^[2] tinyTable = ensure_user_columns tinyTable ∧
    rowLookup (ensure_user_columns tinyTable) 0 "user_id"
      = some (ColValue.intV 7) :=
  ⟨(claim_C4 tinyTable 2 (by norm_num)).1.1,
   ((claim_C4 tinyTable 2 (by norm_num)).2 0 "user_id" (ColValue.intV 7)
      (by decide)).1⟩

/-- Claim C5, counterexample: the claim quantifies over every starting table
state, but the api server's schema pass never adds `win_chance`: a table from
an early revision that lacks it still lacks it afterwards, while `win_chance`
is in the required column set. -/
theorem claim_C5_counterexample :
    "win_chance" ∈ requiredCols ∧
    "win_chance" ∉ (schemaManagerApi (some legacyTable)).cols := by
  constructor
  · decide
  · decide

/-- Claim C5 (amended): starting from a database with no `users` table, the
schema pass of either process establishes every required column.  Starting
from an arbitrary existing table, each process only guarantees its own
maintenance list (api: the nine engagement/balance columns; bot: the five
engagement columns) on top of whatever columns the table already had — the
full required set is not guaranteed (see the counterexample). -/
theorem claim_C5 :
    (∀ c ∈ requiredCols,
      c ∈ (schemaManagerApi none).cols ∧ c ∈ (schemaManagerBot none).cols) ∧
    (∀ t : Table,
      (∀ p ∈ apiEnsureList, p.1 ∈ (schemaManagerApi (some t)).cols) ∧
      (∀ p ∈ botEnsureList, p.1 ∈ (schemaManagerBot (some t)).cols) ∧
      (∀ c ∈ t.cols,
        c ∈ (schemaManagerApi (some t)).cols ∧
        c ∈ (schemaManagerBot (some t)).cols)) := by
  constructor
  · decide
  · intro t
    refine ⟨?_, ?_, ?_⟩
    · intro p hp
      exact mem_cols_ensureColumns _ hp
    · intro p hp
      exact mem_cols_ensureColumns _ hp
    · intro c hc
      exact ⟨mem_cols_ensureColumns_of_mem _ hc, mem_cols_ensureColumns_of_mem _ hc⟩

/-- Witness for C5: the balance column is present after a fresh-database
schema pass of either process, and `minutes_in_app` is guaranteed on an
arbitrary existing table. -/
theorem claim_C5_witness :
    ("bal_mmc" ∈ (schemaManagerApi none).cols ∧
     "bal_mmc" ∈ (schemaManagerBot none).cols) ∧
    "minutes_in_app" ∈ (schemaManagerApi (some legacyTable)).cols :=
  ⟨claim_C5.1 "bal_mmc" (by decide),
   (claim_C5.2 legacyTable).1 ("minutes_in_app", ColValue.intV 0) (by decide)⟩

/-- Claim C6: for an authorized request on an existing `user_id`, the
admin update applies exactly the vetted column-value map: every pair in the
map is written, every column outside the map's keys (and every other row) is
unchanged, all keys lie in the allowed column set, and the empty map
short-circuits to `updated: false` with the store untouched. -/
theorem claim_C6 :
    ∀ (key : String) (s : Store) (xkey : Option String) (b : AdminUpdateBody)
      (r0 : UserRow),
      require_admin key xkey = .ok () →
      findUser s b.user_id = some r0 →
      ((vettedFields b = [] →
          admin_user_update key s xkey b = .ok (s, false)) ∧
       (vettedFields b ≠ [] → ∃ s',
          admin_user_update key s xkey b = .ok (s', true) ∧
          (∀ uid', uid' ≠ b.user_id → findUser s' uid' = findUser s uid') ∧
          ∃ r', findUser s' b.user_id = some r' ∧
            (∀ p ∈ vettedFields b, getColumn r' p.1 = some p.2) ∧
            (∀ c, c ∉ (vettedFields b).map Prod.fst →
              getColumn r' c = getColumn r0 c) ∧
            (∀ c ∈ (vettedFields b).map Prod.fst, c ∈ allowed_fields))) := by
  intro key s xkey b r0 hk h
  constructor
  · intro he
    unfold admin_user_update
    rw [hk, h]
    dsimp only
    rw [if_pos he]
  · intro hne
    refine ⟨updateRow s b.user_id
      (fun r => (vettedFields b).foldl setColumn r), ?_, ?_, ?_⟩
    · unfold admin_user_update
      rw [hk, h]
      dsimp only
      rw [if_neg hne]
    · intro uid' hu
      exact findUser_updateRow_ne _ _ _ _ (fun r => by rw [foldl_vettedFields]) hu
    · refine ⟨_, findUser_updateRow_some
        (fun r => by rw [foldl_vettedFields]) h, ?_, ?_, ?_⟩
      · intro p hp
        rcases mem_vettedFields_cases hp with
          ⟨h1, h2⟩|⟨h1, h2⟩|⟨h1, h2⟩|⟨h1, h2⟩|⟨h1, h2⟩|⟨h1, h2⟩|⟨h1, h2⟩|⟨h1, h2⟩|⟨h1, h2⟩|⟨h1, h2⟩|⟨h1, h2⟩ <;>
          (obtain ⟨a, ha, ha2⟩ := Option.map_eq_some'.1 h2
           rw [h1, ← ha2, foldl_vettedFields]
           simp [getColumn, ha])
      · intro c hc
        exact getColumn_foldl_frame hc
      · intro c hcm
        obtain ⟨p, hp, hfst⟩ := List.mem_map.1 hcm
        rcases mem_vettedFields_cases hp with
          ⟨h1, h2⟩|⟨h1, h2⟩|⟨h1, h2⟩|⟨h1, h2⟩|⟨h1, h2⟩|⟨h1, h2⟩|⟨h1, h2⟩|⟨h1, h2⟩|⟨h1, h2⟩|⟨h1, h2⟩|⟨h1, h2⟩ <;>
          (rw [← hfst, h1]; decide)

/-- Witness for C6: an authorized empty update on an existing user returns
`updated: false` and leaves the store as it was. -/
theorem claim_C6_witness :
    admin_user_update "k" sampleStore (some "k") (emptyAdminBody 1)
      = .ok (sampleStore, false) :=
  (claim_C6 "k" sampleStore (some "k") (emptyAdminBody 1)
    (freshUserRow (pingOf 1) 0) (by rfl) (by rfl)).1 (by rfl)

/-- Claim C7: on an existing user, `/event` always refreshes `last_seen`; a
positive `minutes_delta` is added to the stored `minutes_in_app`
(accumulation — two calls with deltas d1, d2 end at the original value plus
d1 + d2); an absent or empty `wallet_address`/`wallet_status` leaves the
column unchanged, while a non-empty value overwrites it. -/
theorem claim_C7 :
    (∀ (s : Store) (now : Int) (b : EventBody) (r0 : UserRow),
      findUser s b.user_id = some r0 →
      ∃ s', event s now b = .ok s' ∧
        ∃ r', findUser s' b.user_id = some r' ∧
          r'.last_seen = now ∧
          (∀ d : Int, b.minutes_delta = some d → 0 < d →
            r'.minutes_in_app = r0.minutes_in_app + d) ∧
          (∀ w : String, b.wallet_address = some w → w ≠ "" →
            r'.wallet_address = w) ∧
          ((b.wallet_address = none ∨ b.wallet_address = some "") →
            r'.wallet_address = r0.wallet_address) ∧
          (∀ w : String, b.wallet_status = some w → w ≠ "" →
            r'.wallet_status = w) ∧
          ((b.wallet_status = none ∨ b.wallet_status = some "") →
            r'.wallet_status = r0.wallet_status)) ∧
    (∀ (s : Store) (now1 now2 : Int) (b1 b2 : EventBody) (r0 : UserRow)
      (d1 d2 : Int),
      b2.user_id = b1.user_id →
      findUser s b1.user_id = some r0 →
      b1.minutes_delta = some d1 → 0 < d1 →
      b2.minutes_delta = some d2 → 0 < d2 →
      ∃ s1 s2 r', event s now1 b1 = .ok s1 ∧ event s1 now2 b2 = .ok s2 ∧
        findUser s2 b1.user_id = some r' ∧
        r'.minutes_in_app = r0.minutes_in_app + d1 + d2) := by
  constructor
  · intro s now b r0 h
    obtain ⟨s', he, hf, _⟩ := event_ok h
    refine ⟨s', he, eventRow r0 now b, hf, eventRow_last_seen r0 now b,
      ?_, ?_, ?_, ?_, ?_⟩
    · intro d hmd hd
      exact eventRow_minutes_pos r0 now hmd hd
    · intro w hw hw'
      exact eventRow_waddr_pos r0 now hw hw'
    · intro hskip
      exact eventRow_waddr_skip r0 now hskip
    · intro w hw hw'
      exact eventRow_wstatus_pos r0 now hw hw'
    · intro hskip
      exact eventRow_wstatus_skip r0 now hskip
  · intro s now1 now2 b1 b2 r0 d1 d2 huid h hd1 hp1 hd2 hp2
    obtain ⟨s1, he1, hf1, _⟩ := event_ok h
    have h2 : findUser s1 b2.user_id = some (eventRow r0 now1 b1) := by
      rw [huid]; exact hf1
    obtain ⟨s2, he2, hf2, _⟩ := event_ok h2
    refine ⟨s1, s2, eventRow (eventRow r0 now1 b1) now2 b2, he1, he2, ?_, ?_⟩
    · rw [← huid]; exact hf2
    · rw [eventRow_minutes_pos _ now2 hd2 hp2,
        eventRow_minutes_pos _ now1 hd1 hp1]

/-- Witness for C7: deltas 5 then 3 on the sample user end at 8 minutes. -/
theorem claim_C7_witness :
    ∃ s1 s2 r', event sampleStore 10 (eventOf 1 (some 5)) = .ok s1 ∧
      event s1 20 (eventOf 1 (some 3)) = .ok s2 ∧
      findUser s2 1 = some r' ∧
      r'.minutes_in_app = 0 + 5 + 3 :=
  claim_C7.2 sampleStore 10 20 (eventOf 1 (some 5)) (eventOf 1 (some 3))
    (freshUserRow (pingOf 1) 0) 5 3 rfl rfl rfl (by norm_num) rfl (by norm_num)

/-- Claim C8: on a never-touched `user_id`, `get`, `event` and the admin
update each fail with NotFound before any write (the embedded operations
return the error and no store); after one touch, `get` succeeds with the full
inserted record. -/
theorem claim_C8 :
    ∀ (s : Store) (uid : Int), findUser s uid = none →
      get_user_row s uid = .error .notFound ∧
      (∀ (now : Int) (b : EventBody), b.user_id = uid →
        event s now b = .error .notFound) ∧
      (∀ (key : String) (xkey : Option String) (b : AdminUpdateBody),
        b.user_id = uid → require_admin key xkey = .ok () →
        admin_user_update key s xkey b = .error .notFound) ∧
      (∀ (now : Int) (p : PingBody), p.user_id = uid →
        get_user_row (upsert_user s now p) uid = .ok (freshUserRow p now)) := by
  intro s uid h
  refine ⟨?_, ?_, ?_, ?_⟩
  · unfold get_user_row
    rw [h]
  · intro now b hb
    unfold event
    rw [hb, h]
  · intro key xkey b hb hk
    unfold admin_user_update
    rw [hk, hb, h]
  · intro now p hp
    have h' : findUser s p.user_id = none := by rw [hp]; exact h
    unfold get_user_row
    rw [← hp, upsert_user_not_found now h']

/-- Witness for C8 on an empty store and user 42. -/
theorem claim_C8_witness :
    get_user_row ([] : Store) 42 = .error .notFound ∧
    event [] 5 (eventOf 42 (some 1)) = .error .notFound ∧
    get_user_row (upsert_user [] 7 (pingOf 42)) 42
      = .ok (freshUserRow (pingOf 42) 7) :=
  ⟨(claim_C8 [] 42 rfl).1,
   (claim_C8 [] 42 rfl).2.1 5 (eventOf 42 (some 1)) rfl,
   (claim_C8 [] 42 rfl).2.2.2 7 (pingOf 42) rfl⟩

/-- Claim C9, counterexample: an authorized admin update may write a
`minutes_in_app` smaller than the stored value — user 7 holds 10 minutes,
the vetted update sets 3, and 3 < 10.  So `minutes_in_app` is not
monotone under all core operations. -/
theorem claim_C9_counterexample :
    admin_user_update "k" [rowTen] (some "k")
        (validateAdminBody { emptyAdminBody 7 with minutes_in_app := some 3 })
      = .ok ([{ rowTen with minutes_in_app := 3 }], true) ∧
    rowTen.minutes_in_app = 10 ∧ (3 : Int) < 10 := by
  refine ⟨?_, rfl, by decide⟩
  rfl

/-- Claim C9 (amended): `touch` and `recordEvent` never decrease
`minutes_in_app` (touch leaves it unchanged on an existing row; recordEvent
only ever adds a positive delta), and the admin update's vetted
`minutes_in_app` is guaranteed non-negative — but it is an absolute write
that may be smaller than the stored value (see the counterexample). -/
theorem claim_C9 :
    (∀ (s : Store) (now : Int) (p : PingBody) (r0 : UserRow),
      findUser s p.user_id = some r0 →
      ∃ r', findUser (upsert_user s now p) p.user_id = some r' ∧
        r0.minutes_in_app ≤ r'.minutes_in_app) ∧
    (∀ (s : Store) (now : Int) (b : EventBody) (r0 : UserRow),
      findUser s b.user_id = some r0 →
      ∃ s' r', event s now b = .ok s' ∧ findUser s' b.user_id = some r' ∧
        r0.minutes_in_app ≤ r'.minutes_in_app) ∧
    (∀ (raw : AdminUpdateBody) (n : Int),
      (validateAdminBody raw).minutes_in_app = some n → 0 ≤ n) := by
  refine ⟨?_, ?_, ?_⟩
  · intro s now p r0 h
    exact ⟨profileRefresh p now r0, upsert_user_found now h, le_refl _⟩
  · intro s now b r0 h
    obtain ⟨s', he, hf, _⟩ := event_ok h
    exact ⟨s', eventRow r0 now b, he, hf, eventRow_minutes_ge r0 now b⟩
  · intro raw n h
    rcases hm : raw.minutes_in_app with _ | m
    · simp [validateAdminBody, non_negative_ints, hm] at h
    · simp [validateAdminBody, non_negative_ints, hm] at h
      omega

/-- Witness for C9: recordEvent with delta 5 does not decrease the counter. -/
theorem claim_C9_witness :
    ∃ s' r', event sampleStore 10 (eventOf 1 (some 5)) = .ok s' ∧
      findUser s' 1 = some r' ∧
      (freshUserRow (pingOf 1) 0).minutes_in_app ≤ r'.minutes_in_app :=
  claim_C9.2.1 sampleStore 10 (eventOf 1 (some 5)) (freshUserRow (pingOf 1) 0) rfl

/-- Claim C10: the admin endpoints fail closed.  With the configured key
empty (variable unset or whitespace), both endpoints reject with the 500
error; with a configured key, a supplied header whose stripped value differs
rejects with 403.  In both cases the result is independent of the store —
no store read or write happens before the rejection. -/
theorem claim_C10 :
    (∀ (env : String) (s : Store) (xkey : Option String) (b : AdminUpdateBody),
      adminKeyOfEnv env = "" →
        admin_user_update (adminKeyOfEnv env) s xkey b = .error .adminKeyUnset ∧
        admin_users (adminKeyOfEnv env) s xkey = .error .adminKeyUnset) ∧
    (∀ (key : String) (s : Store) (xkey : Option String) (b : AdminUpdateBody),
      key ≠ "" → pyStrip (xkey.getD "") ≠ key →
        admin_user_update key s xkey b = .error .forbidden ∧
        admin_users key s xkey = .error .forbidden) ∧
    (∀ (key : String) (s1 s2 : Store) (xkey : Option String)
      (b : AdminUpdateBody),
      require_admin key xkey ≠ .ok () →
        admin_user_update key s1 xkey b = admin_user_update key s2 xkey b ∧
        admin_users key s1 xkey = admin_users key s2 xkey) := by
  refine ⟨?_, ?_, ?_⟩
  · intro env s xkey b hempty
    have hra : require_admin (adminKeyOfEnv env) xkey = .error .adminKeyUnset := by
      unfold require_admin
      rw [if_pos hempty]
    constructor
    · unfold admin_user_update
      rw [hra]
    · unfold admin_users
      rw [hra]
  · intro key s xkey b hkey hne
    have hra : require_admin key xkey = .error .forbidden := by
      unfold require_admin
      rw [if_neg hkey, if_pos hne]
    constructor
    · unfold admin_user_update
      rw [hra]
    · unfold admin_users
      rw [hra]
  · intro key s1 s2 xkey b hra
    cases h : require_admin key xkey with
    | ok u => exact absurd (by rw [h]) hra
    | error e =>
        constructor
        · unfold admin_user_update
          rw [h]
        · unfold admin_users
          rw [h]

/-- Witness for C10: an empty configured key rejects with 500 on any store;
a wrong header rejects with 403; both results ignore the store. -/
theorem claim_C10_witness :
    admin_user_update (adminKeyOfEnv "  ") sampleStore (some "k")
        (emptyAdminBody 1) = .error .adminKeyUnset ∧
    admin_users "k" sampleStore (some "wrong") = .error .forbidden ∧
    admin_users "k" sampleStore (some "wrong") = admin_users "k" [] (some "wrong") :=
  ⟨(claim_C10.1 "  " sampleStore (some "k") (emptyAdminBody 1) (by decide)).1,
   (claim_C10.2.1 "k" sampleStore (some "wrong") (emptyAdminBody 1)
      (by decide) (by decide)).2,
   (claim_C10.2.2 "k" sampleStore [] (some "wrong") (emptyAdminBody 1)
      (by
        intro hcon
        rw [show require_admin "k" (some "wrong") = Except.error .forbidden
          from rfl] at hcon
        exact Except.noConfusion hcon)).2⟩
